import Mathlib

/-!
Shallow embedding of the real-time session coordinator of `src/server.js`
(a Socket.IO Flappy-Bird server): the in-memory presence registry
(`onlineUsers`), the pending-game table (`pendingGames`), the MongoDB-backed
collections (`users`, `friendships`, `scores`) and the socket event handlers
`guestLogin`, `sendInvite`, `acceptInvite`, `difficultySelected`,
`scoreUpdate`, `addFriend`, `requestInitialData` and `getLeaderboards`.

JavaScript objects keyed by strings are modelled as insertion-ordered
association lists (`objGet` / `objSet` / `objDelete` / `objValues` mirror
property read, property write, `delete` and `Object.values`).  MongoDB
ObjectIds are modelled as strings; `a.equals(b)` and `a.toString() === b`
both become string equality.  Each socket handler becomes a pure function
from the server state (plus the handler's payload and, where the source
calls `new ObjectId()`, an explicitly passed fresh identifier) to the new
server state together with the list of messages emitted via
`socket.emit` / `io.to(...).emit`, in emission order.
-/

namespace FlappyServer

/-- A document of the `users` collection (the fields the handlers read):
`_id` (stringified ObjectId), `customUsername`, `wins`, and the persisted
`socketId` marker set while the account is connected. -/
structure UserDoc where
  _id : String
  customUsername : String
  wins : Nat
  socketId : Option String
  deriving Repr, DecidableEq

/-- A document of the `friendships` collection, as inserted by the
`addFriend` handler. -/
structure FriendEdge where
  requesterId : String
  recipientId : String
  status : String
  deriving Repr, DecidableEq

/-- A document of the `scores` collection, as inserted by the `gameOver`
handler and read by `getLeaderboards`. -/
structure ScoreRecord where
  userId : String
  username : String
  score : Nat
  mode : String
  deriving Repr, DecidableEq

/-- A value of the `onlineUsers` map: the user spread together with the
socket id of the live connection (`{ ...user, socketId: socket.id }`). -/
structure OnlineUser where
  _id : String
  customUsername : String
  isGuest : Bool
  socketId : String
  deriving Repr, DecidableEq

/-- One player slot of a pending game, as built by the `acceptInvite`
handler: `{ id, socketId, name, difficulty: null }`. -/
structure Slot where
  id : String
  socketId : String
  name : String
  difficulty : Option String
  deriving Repr, DecidableEq

/-- A value of the `pendingGames` table. -/
structure PendingGame where
  player1 : Slot
  player2 : Slot
  deriving Repr, DecidableEq

/-- The MongoDB collections touched by the embedded handlers. -/
structure Db where
  users : List UserDoc
  friendships : List FriendEdge
  scores : List ScoreRecord
  deriving Repr, DecidableEq

/-- The full server state: the two in-memory registries plus the database. -/
structure ServerState where
  onlineUsers : List (String × OnlineUser)
  pendingGames : List (String × PendingGame)
  db : Db
  deriving Repr, DecidableEq

/-- Property read `m[k]` on a JavaScript object modelled as an
insertion-ordered association list. -/
def objGet (m : List (String × α)) (k : String) : Option α :=
  (m.find? fun p => p.1 == k).map Prod.snd

/-- Property write `m[k] = v`: overwrites the first binding in place,
otherwise appends (JavaScript string keys keep insertion order). -/
def objSet (m : List (String × α)) (k : String) (v : α) : List (String × α) :=
  match m with
  | [] => [(k, v)]
  | p :: rest => if p.1 == k then (k, v) :: rest else p :: objSet rest k v

/-- `delete m[k]`. -/
def objDelete (m : List (String × α)) (k : String) : List (String × α) :=
  m.filter fun p => p.1 != k

/-- `Object.values(m)`, in insertion order. -/
def objValues (m : List (String × α)) : List α :=
  m.map Prod.snd

/-- Every message the embedded handlers emit, tagged with the socket id it
is addressed to (`socket.emit` targets the handling socket;
`io.to(sid).emit` targets `sid`). -/
inductive Msg where
  | loginSuccess (sid : String) (uid uname : String) (isGuest : Bool)
  | friendsList (sid : String) (friends : List (String × String))
      (onlineFriendIds : List String)
  | friendAdded (sid : String) (fid fname : String)
  | inviteReceived (sid : String) (fromId fromName : String)
  | showDifficultySelect (sid : String) (gameId : String)
  | updateDifficultyChoices (sid : String) (myChoice opponentChoice : Option String)
      (opponentName : String)
  | gameStart (sid : String) (gameId opponentName difficulty : String)
  | opponentScoreUpdate (sid : String) (score : Nat)
  | leaderboards (sid : String) (singlePlayer : List ScoreRecord)
      (multiPlayer : List UserDoc)
  deriving Repr, DecidableEq

/-- JavaScript truthiness of a stored difficulty value, as tested by
`if (player1.difficulty && player2.difficulty)`: `null` and the empty
string are falsy, every other string is truthy. -/
def truthy : Option String → Bool
  | none => false
  | some s => s != ""

/-- The connection handshake (`io.on('connection')`, lines 90–97): when the
session resolves to a persisted user, the presence record is stored under
the socket id and the account's persisted `socketId` marker is set. -/
def registerConnection (st : ServerState) (sockId : String) (user : UserDoc) :
    ServerState :=
  let r0 : OnlineUser := ⟨user._id, user.customUsername, false, sockId⟩
  { st with
    onlineUsers := objSet st.onlineUsers sockId r0,
    db := { st.db with
      users := st.db.users.map fun u =>
        if u._id == user._id then { u with socketId := some sockId } else u } }

/-- The `guestLogin` handler (lines 99–104).  `freshOid` stands for the
`new ObjectId()` the source generates. -/
def guestLogin (st : ServerState) (sockId : String) (freshOid : String) :
    ServerState × List Msg :=
  let guestId := "guest_" ++ freshOid
  let guestName := "Guest-" ++ guestId.takeRight 4
  let guestRec : OnlineUser := ⟨guestId, guestName, true, sockId⟩
  ({ st with onlineUsers := objSet st.onlineUsers sockId guestRec },
   [Msg.loginSuccess sockId guestId guestName true])

/-- The `sendInvite` handler (lines 139–145). -/
def sendInvite (st : ServerState) (sockId toUserId : String) :
    ServerState × List Msg :=
  let sender := objGet st.onlineUsers sockId
  let recipientSocket := (objValues st.onlineUsers).find? fun u => u._id == toUserId
  match sender, recipientSocket with
  | some s, some r =>
      (st, [Msg.inviteReceived r.socketId s._id s.customUsername])
  | _, _ => (st, [])

/-- The `acceptInvite` handler (lines 147–158).  `freshGameId` stands for
`new ObjectId().toString()`. -/
def acceptInvite (st : ServerState) (sockId senderId freshGameId : String) :
    ServerState × List Msg :=
  let accepter := objGet st.onlineUsers sockId
  let senderSocket := (objValues st.onlineUsers).find? fun u => u._id == senderId
  match accepter, senderSocket with
  | some acc, some sender =>
      let game : PendingGame :=
        ⟨⟨sender._id, sender.socketId, sender.customUsername, none⟩,
         ⟨acc._id, acc.socketId, acc.customUsername, none⟩⟩
      ({ st with pendingGames := objSet st.pendingGames freshGameId game },
       [Msg.showDifficultySelect sender.socketId freshGameId,
        Msg.showDifficultySelect acc.socketId freshGameId])
  | _, _ => (st, [])

/-- The slot update of the `difficultySelected` handler (lines 164–166):
`isPlayer1` compares the chooser's account id with player 1's; on a match
player 1's choice is set, otherwise player 2's choice is set. -/
def difficultyStep (game : PendingGame) (player : OnlineUser) (difficulty : String) :
    PendingGame :=
  let isPlayer1 := game.player1.id == player._id
  if isPlayer1 then
    { game with player1 := { game.player1 with difficulty := some difficulty } }
  else
    { game with player2 := { game.player2 with difficulty := some difficulty } }

/-- The `difficultySelected` handler (lines 160–175). -/
def difficultySelected (st : ServerState) (sockId gameId difficulty : String) :
    ServerState × List Msg :=
  match objGet st.pendingGames gameId, objGet st.onlineUsers sockId with
  | some game, some player =>
      let game' := difficultyStep game player difficulty
      let p1 := game'.player1
      let p2 := game'.player2
      let updates :=
        [Msg.updateDifficultyChoices p1.socketId p1.difficulty p2.difficulty p2.name,
         Msg.updateDifficultyChoices p2.socketId p2.difficulty p1.difficulty p1.name]
      if truthy p1.difficulty && truthy p2.difficulty then
        ({ st with pendingGames :=
            objDelete (objSet st.pendingGames gameId game') gameId },
         updates ++
           [Msg.gameStart p1.socketId gameId p2.name (p1.difficulty.getD ""),
            Msg.gameStart p2.socketId gameId p1.name (p2.difficulty.getD "")])
      else
        ({ st with pendingGames := objSet st.pendingGames gameId game' }, updates)
  | _, _ => (st, [])

/-- The `scoreUpdate` handler (lines 177–184): it scans the **pending**
game table for a game containing the reporter. -/
def scoreUpdate (st : ServerState) (sockId : String) (score : Nat) :
    ServerState × List Msg :=
  match objGet st.onlineUsers sockId with
  | none => (st, [])
  | some user =>
      match (objValues st.pendingGames).find? fun g =>
          g.player1.id == user._id || g.player2.id == user._id with
      | none => (st, [])
      | some game =>
          let opponent :=
            if game.player1.id == user._id then game.player2 else game.player1
          (st, [Msg.opponentScoreUpdate opponent.socketId score])

/-- The `addFriend` handler (lines 125–137). -/
def addFriend (st : ServerState) (sockId friendId : String) :
    ServerState × List Msg :=
  match objGet st.onlineUsers sockId with
  | none => (st, [])
  | some requester =>
      if requester.isGuest || requester._id == friendId then (st, [])
      else
        match st.db.users.find? fun u => u._id == friendId with
        | none => (st, [])
        | some recipient =>
            let st' := { st with db := { st.db with
              friendships := st.db.friendships ++
                [⟨requester._id, recipient._id, "accepted"⟩] } }
            let toSelf := Msg.friendAdded sockId recipient._id recipient.customUsername
            match recipient.socketId with
            | some rsid =>
                if (objGet st.onlineUsers rsid).isSome then
                  (st', [toSelf,
                    Msg.friendAdded rsid requester._id requester.customUsername])
                else (st', [toSelf])
            | none => (st', [toSelf])

/-- The `requestInitialData` handler (lines 115–123).  The friends push is
built by filtering the `users` collection against the list of friend ids
(the `$in` query), so each matching account document appears once. -/
def requestInitialData (st : ServerState) (sockId : String) :
    ServerState × List Msg :=
  match objGet st.onlineUsers sockId with
  | none => (st, [])
  | some user =>
      if user.isGuest then (st, [])
      else
        let friendships := st.db.friendships.filter fun f =>
          f.requesterId == user._id || f.recipientId == user._id
        let friendIds := friendships.map fun f =>
          if f.requesterId == user._id then f.recipientId else f.requesterId
        let friends := (st.db.users.filter fun u => friendIds.contains u._id).map
          fun u => (u._id, u.customUsername)
        let onlineFriendIds := ((objValues st.onlineUsers).filter fun u =>
          !u.isGuest && friendIds.contains u._id).map fun u => u._id
        (st, [Msg.friendsList sockId friends onlineFriendIds])

/-- Descending order on scores, as requested by `.sort({ score: -1 })`. -/
def scoreDesc (a b : ScoreRecord) : Prop := b.score ≤ a.score

/-- Descending order on win counters, as requested by `.sort({ wins: -1 })`. -/
def winsDesc (a b : UserDoc) : Prop := b.wins ≤ a.wins

instance : DecidableRel scoreDesc := fun a b =>
  inferInstanceAs (Decidable (b.score ≤ a.score))

instance : DecidableRel winsDesc := fun a b =>
  inferInstanceAs (Decidable (b.wins ≤ a.wins))

instance : IsTotal ScoreRecord scoreDesc := ⟨fun a b => le_total b.score a.score⟩

instance : IsTrans ScoreRecord scoreDesc := ⟨fun _ _ _ hab hbc => le_trans hbc hab⟩

instance : IsTotal UserDoc winsDesc := ⟨fun a b => le_total b.wins a.wins⟩

instance : IsTrans UserDoc winsDesc := ⟨fun _ _ _ hab hbc => le_trans hbc hab⟩

/-- The `getLeaderboards` handler (lines 196–200): top 10 single-player
scores by descending score, and the top 10 accounts with `wins > 0` by
descending wins. -/
def getLeaderboards (st : ServerState) (sockId : String) :
    ServerState × List Msg :=
  let singlePlayer :=
    (List.insertionSort scoreDesc (st.db.scores.filter fun s => s.mode == "single")).take 10
  let multiPlayer :=
    (List.insertionSort winsDesc (st.db.users.filter fun u => 0 < u.wins)).take 10
  (st, [Msg.leaderboards sockId singlePlayer multiPlayer])

/-! ### Concrete reachable states

A small world used by the concrete theorems below: three persisted
accounts, connected on sockets `s1`–`s3`, then an accepted invitation
between Alice and Bob and Alice's difficulty choice — every state is built
by running the embedded handlers from the initial empty registries. -/

/-- Persisted account of Alice. -/
def aliceDoc : UserDoc := ⟨"u1", "Alice", 0, none⟩

/-- Persisted account of Bob. -/
def bobDoc : UserDoc := ⟨"u2", "Bob", 0, none⟩

/-- Persisted account of Carol. -/
def carolDoc : UserDoc := ⟨"u3", "Carol", 0, none⟩

/-- Initial state: nobody connected, three persisted accounts, no
friendships, no scores. -/
def stInit : ServerState := ⟨[], [], ⟨[aliceDoc, bobDoc, carolDoc], [], []⟩⟩

/-- Alice, Bob and Carol connected on sockets `s1`, `s2`, `s3`. -/
def stConn : ServerState :=
  registerConnection
    (registerConnection (registerConnection stInit "s1" aliceDoc) "s2" bobDoc)
    "s3" carolDoc

/-- Bob (socket `s2`) has accepted Alice's invitation; the pending game is
keyed `g`, both choices still null. -/
def stAccepted : ServerState := (acceptInvite stConn "s2" "u1" "g").1

/-- Alice has chosen difficulty `easy`; Bob's slot is still null. -/
def stHalf : ServerState := (difficultySelected stAccepted "s1" "g" "easy").1

/-- The pending game stored under `g` in `stAccepted`. -/
def gameAccepted : PendingGame :=
  ⟨⟨"u1", "s1", "Alice", none⟩, ⟨"u2", "s2", "Bob", none⟩⟩

/-- The pending game stored under `g` in `stHalf`. -/
def gameHalf : PendingGame :=
  ⟨⟨"u1", "s1", "Alice", some "easy"⟩, ⟨"u2", "s2", "Bob", none⟩⟩

/-- Alice's presence record in `stConn`. -/
def aliceOnline : OnlineUser := ⟨"u1", "Alice", false, "s1"⟩

/-- Bob's presence record in `stConn`. -/
def bobOnline : OnlineUser := ⟨"u2", "Bob", false, "s2"⟩

/-- Carol's presence record in `stConn`. -/
def carolOnline : OnlineUser := ⟨"u3", "Carol", false, "s3"⟩

/-- Friend world: only Alice connected. -/
def stFr0 : ServerState := registerConnection stInit "s1" aliceDoc

/-- Alice has run `addFriend` twice with Bob as the recipient. -/
def stFr2 : ServerState := (addFriend (addFriend stFr0 "s1" "u2").1 "s1" "u2").1

/-! ### Association-list lemmas -/

theorem objGet_cons (p : String × α) (m : List (String × α)) (k : String) :
    objGet (p :: m) k = if p.1 == k then some p.2 else objGet m k := by
  by_cases h : p.1 == k <;> simp [objGet, List.find?_cons, h]

theorem objGet_objSet_self (m : List (String × α)) (k : String) (v : α) :
    objGet (objSet m k v) k = some v := by
  induction m with
  | nil => simp [objGet, objSet]
  | cons p rest ih =>
      by_cases h : p.1 == k
      · simp [objSet, h, objGet_cons]
      · simp [objSet, h, objGet_cons, ih]

theorem objGet_objSet_ne (m : List (String × α)) (k k' : String) (v : α)
    (h : k' ≠ k) : objGet (objSet m k v) k' = objGet m k' := by
  induction m with
  | nil =>
      simp [objSet, objGet_cons, objGet]
      intro hk
      exact absurd hk.symm h
  | cons p rest ih =>
      by_cases hpk : p.1 == k
      · have hp : p.1 = k := by simpa using hpk
        have hne : ¬(k = k') := fun hk => h hk.symm
        simp [objSet, hpk, objGet_cons, hp, hne]
      · simp [objSet, hpk, objGet_cons, ih]

theorem objGet_objDelete_self (m : List (String × α)) (k : String) :
    objGet (objDelete m k) k = none := by
  induction m with
  | nil => simp [objDelete, objGet]
  | cons p rest ih =>
      by_cases h : p.1 == k
      · have : (p.1 != k) = false := by simp [bne, h]
        simpa [objDelete, List.filter_cons, this] using ih
      · have : (p.1 != k) = true := by simp [bne, h]
        simpa [objDelete, List.filter_cons, this, objGet_cons, h] using ih

theorem objSet_of_objGet_none (m : List (String × α)) (k : String) (v : α)
    (h : objGet m k = none) : objSet m k v = m ++ [(k, v)] := by
  induction m with
  | nil => simp [objSet]
  | cons p rest ih =>
      rw [objGet_cons] at h
      by_cases hpk : p.1 == k
      · simp [hpk] at h
      · simp [objSet, hpk, ih (by simpa [hpk] using h)]

/-! ### Behaviour of `difficultySelected` on unknown inputs -/

theorem difficultySelected_noop_noGame (st : ServerState) (sockId gameId d : String)
    (h : objGet st.pendingGames gameId = none) :
    difficultySelected st sockId gameId d = (st, []) := by
  cases hp : objGet st.onlineUsers sockId <;> simp [difficultySelected, h, hp]

theorem difficultySelected_noop_noPlayer (st : ServerState) (sockId gameId d : String)
    (h : objGet st.onlineUsers sockId = none) :
    difficultySelected st sockId gameId d = (st, []) := by
  cases hg : objGet st.pendingGames gameId <;> simp [difficultySelected, h, hg]

/-- C4: a `difficultySelected` call whose `gameId` references no pending
game, or whose sending connection has no presence record, is a no-op: the
state (pending table, online users and database) is unchanged and no
message is emitted. -/
theorem difficultySelected_unknown_noop (st : ServerState) (sockId gameId d : String)
    (h : objGet st.pendingGames gameId = none ∨ objGet st.onlineUsers sockId = none) :
    difficultySelected st sockId gameId d = (st, []) := by
  rcases h with h | h
  · exact difficultySelected_noop_noGame st sockId gameId d h
  · exact difficultySelected_noop_noPlayer st sockId gameId d h

/-- Witness for C4 at a concrete input: `stConn` has no pending game keyed
`nope`, and the call changes nothing and emits nothing. -/
theorem difficultySelected_unknown_noop_witness :
    (objGet stConn.pendingGames "nope" = none ∨ objGet stConn.onlineUsers "s1" = none) ∧
    difficultySelected stConn "s1" "nope" "easy" = (stConn, []) :=
  ⟨Or.inl (by decide),
   difficultySelected_unknown_noop stConn "s1" "nope" "easy" (Or.inl (by decide))⟩

/-- C2 counterexample: in the reachable state `stHalf` (Alice already
chose `easy`), Bob submits the empty-string difficulty.  After the call
both slots hold a non-null choice, yet the pending record is still in the
table: JavaScript tests `player1.difficulty && player2.difficulty`, and
the empty string is falsy, so the claim as stated is false. -/
theorem pending_survives_empty_difficulty_cex :
    objGet (difficultySelected stHalf "s2" "g" "").1.pendingGames "g" =
      some (PendingGame.mk (Slot.mk "u1" "s1" "Alice" (some "easy"))
        (Slot.mk "u2" "s2" "Bob" (some ""))) ∧
    (Slot.mk "u1" "s1" "Alice" (some "easy")).difficulty ≠ none ∧
    (Slot.mk "u2" "s2" "Bob" (some "")).difficulty ≠ none := by
  decide

/-- C2 (amended): the instant a `chooseDifficulty` call makes both choices
truthy (non-null **and** non-empty), the record is deleted from the pending
table, and any later `difficultySelected` for that `gameId` changes no
state and sends no notifications. -/
theorem pending_deleted_on_both_truthy (st : ServerState) (sockId gameId d : String)
    (game : PendingGame) (player : OnlineUser)
    (hg : objGet st.pendingGames gameId = some game)
    (hp : objGet st.onlineUsers sockId = some player)
    (hb : (truthy (difficultyStep game player d).player1.difficulty &&
           truthy (difficultyStep game player d).player2.difficulty) = true) :
    objGet (difficultySelected st sockId gameId d).1.pendingGames gameId = none ∧
    ∀ st2 sockId2 d2, objGet st2.pendingGames gameId = none →
      difficultySelected st2 sockId2 gameId d2 = (st2, []) := by
  constructor
  · simp only [difficultySelected, hg, hp, hb, if_true]
    exact objGet_objDelete_self _ _
  · intro st2 sockId2 d2 h2
    exact difficultySelected_noop_noGame st2 sockId2 gameId d2 h2

/-- Witness for C2 (amended): Bob's `hard` completes the game `g` of
`stHalf`, the record disappears, and a later submission for `g` on a state
without it is a no-op. -/
theorem pending_deleted_on_both_truthy_witness :
    objGet (difficultySelected stHalf "s2" "g" "hard").1.pendingGames "g" = none ∧
    difficultySelected stInit "s9" "g" "easy" = (stInit, []) :=
  ⟨(pending_deleted_on_both_truthy stHalf "s2" "g" "hard" gameHalf bobOnline
      (by decide) (by decide) (by decide)).1,
   (pending_deleted_on_both_truthy stHalf "s2" "g" "hard" gameHalf bobOnline
      (by decide) (by decide) (by decide)).2 stInit "s9" "easy" (by decide)⟩

/-- C1: whenever a `difficultySelected` call leaves both slots with a
truthy choice, the emitted messages end with two `gameStart` payloads,
each addressed to a slot's connection and carrying **that slot's own**
stored difficulty; and the two payloads for the same `gameId` may differ,
as the concrete run (Alice `easy`, Bob `hard`) shows. -/
theorem gameStart_carries_own_difficulty (st : ServerState) (sockId gameId d : String)
    (game : PendingGame) (player : OnlineUser)
    (hg : objGet st.pendingGames gameId = some game)
    (hp : objGet st.onlineUsers sockId = some player)
    (hb : (truthy (difficultyStep game player d).player1.difficulty &&
           truthy (difficultyStep game player d).player2.difficulty) = true) :
    (∃ rest, (difficultySelected st sockId gameId d).2 = rest ++
      [Msg.gameStart (difficultyStep game player d).player1.socketId gameId
         (difficultyStep game player d).player2.name
         ((difficultyStep game player d).player1.difficulty.getD ""),
       Msg.gameStart (difficultyStep game player d).player2.socketId gameId
         (difficultyStep game player d).player1.name
         ((difficultyStep game player d).player2.difficulty.getD "")]) ∧
    Msg.gameStart "s1" "g" "Bob" "easy" ∈ (difficultySelected stHalf "s2" "g" "hard").2 ∧
    Msg.gameStart "s2" "g" "Alice" "hard" ∈ (difficultySelected stHalf "s2" "g" "hard").2 ∧
    ("easy" : String) ≠ "hard" := by
  refine ⟨?_, by decide, by decide, by decide⟩
  refine ⟨[Msg.updateDifficultyChoices (difficultyStep game player d).player1.socketId
      (difficultyStep game player d).player1.difficulty
      (difficultyStep game player d).player2.difficulty
      (difficultyStep game player d).player2.name,
    Msg.updateDifficultyChoices (difficultyStep game player d).player2.socketId
      (difficultyStep game player d).player2.difficulty
      (difficultyStep game player d).player1.difficulty
      (difficultyStep game player d).player1.name], ?_⟩
  simp [difficultySelected, hg, hp, hb]

/-- Witness for C1: Bob completes game `g` of `stHalf` with `hard`. -/
theorem gameStart_carries_own_difficulty_witness :
    (∃ rest, (difficultySelected stHalf "s2" "g" "hard").2 = rest ++
      [Msg.gameStart (difficultyStep gameHalf bobOnline "hard").player1.socketId "g"
         (difficultyStep gameHalf bobOnline "hard").player2.name
         ((difficultyStep gameHalf bobOnline "hard").player1.difficulty.getD ""),
       Msg.gameStart (difficultyStep gameHalf bobOnline "hard").player2.socketId "g"
         (difficultyStep gameHalf bobOnline "hard").player1.name
         ((difficultyStep gameHalf bobOnline "hard").player2.difficulty.getD "")]) ∧
    Msg.gameStart "s1" "g" "Bob" "easy" ∈ (difficultySelected stHalf "s2" "g" "hard").2 ∧
    Msg.gameStart "s2" "g" "Alice" "hard" ∈ (difficultySelected stHalf "s2" "g" "hard").2 ∧
    ("easy" : String) ≠ "hard" :=
  gameStart_carries_own_difficulty stHalf "s2" "g" "hard" gameHalf bobOnline
    (by decide) (by decide) (by decide)

/-- C5 counterexample: in the reachable state `stAccepted`, Carol
(account `u3`, a recognized online user matching **neither** slot of game
`g`) submits a difficulty, and player 2's choice changes from `null` to
`hard`: the source computes `isPlayer1` by comparing against player 1 only
and otherwise writes into player 2's slot. -/
theorem difficulty_nonparticipant_changes_slot_cex :
    objGet stAccepted.pendingGames "g" = some gameAccepted ∧
    objGet stAccepted.onlineUsers "s3" = some carolOnline ∧
    carolOnline._id ≠ gameAccepted.player1.id ∧
    carolOnline._id ≠ gameAccepted.player2.id ∧
    objGet (difficultySelected stAccepted "s3" "g" "hard").1.pendingGames "g" =
      some (PendingGame.mk (Slot.mk "u1" "s1" "Alice" none)
        (Slot.mk "u2" "s2" "Bob" (some "hard"))) ∧
    gameAccepted.player2.difficulty = none := by
  decide

/-- C5 (amended): the slot that `difficultySelected` writes is chosen by
comparing the chooser's account id with **player 1's** id only: on a match
player 1's choice is set, otherwise player 2's choice is set — even when
the chooser occupies neither slot.  The updated game is stored back (or
deleted when both choices become truthy). -/
theorem difficulty_slot_by_player1_match (st : ServerState) (sockId gameId d : String)
    (game : PendingGame) (player : OnlineUser)
    (hg : objGet st.pendingGames gameId = some game)
    (hp : objGet st.onlineUsers sockId = some player) :
    (game.player1.id = player._id →
       (difficultyStep game player d).player1.difficulty = some d ∧
       (difficultyStep game player d).player2 = game.player2) ∧
    (game.player1.id ≠ player._id →
       (difficultyStep game player d).player1 = game.player1 ∧
       (difficultyStep game player d).player2.difficulty = some d) ∧
    objGet (difficultySelected st sockId gameId d).1.pendingGames gameId =
      (if (truthy (difficultyStep game player d).player1.difficulty &&
           truthy (difficultyStep game player d).player2.difficulty) = true
       then none else some (difficultyStep game player d)) := by
  refine ⟨?_, ?_, ?_⟩
  · intro h
    simp [difficultyStep, h]
  · intro h
    have hb : (game.player1.id == player._id) = false := by
      simpa using h
    simp [difficultyStep, hb]
  · by_cases hb : (truthy (difficultyStep game player d).player1.difficulty &&
        truthy (difficultyStep game player d).player2.difficulty) = true
    · simp only [difficultySelected, hg, hp, hb, if_true]
      exact objGet_objDelete_self _ _
    · simp only [difficultySelected, hg, hp]
      rw [if_neg hb, if_neg hb]
      exact objGet_objSet_self _ _ _

/-- Witness for C5 (amended): Carol, matching neither slot of game `g` in
`stAccepted`, writes player 2's slot. -/
theorem difficulty_slot_by_player1_match_witness :
    (gameAccepted.player1.id = carolOnline._id →
       (difficultyStep gameAccepted carolOnline "hard").player1.difficulty = some "hard" ∧
       (difficultyStep gameAccepted carolOnline "hard").player2 = gameAccepted.player2) ∧
    (gameAccepted.player1.id ≠ carolOnline._id →
       (difficultyStep gameAccepted carolOnline "hard").player1 = gameAccepted.player1 ∧
       (difficultyStep gameAccepted carolOnline "hard").player2.difficulty = some "hard") ∧
    objGet (difficultySelected stAccepted "s3" "g" "hard").1.pendingGames "g" =
      (if (truthy (difficultyStep gameAccepted carolOnline "hard").player1.difficulty &&
           truthy (difficultyStep gameAccepted carolOnline "hard").player2.difficulty) = true
       then none else some (difficultyStep gameAccepted carolOnline "hard")) :=
  difficulty_slot_by_player1_match stAccepted "s3" "g" "hard" gameAccepted carolOnline
    (by decide) (by decide)

/-- C3: when both the accepter's connection and an online user with the
sender's account id exist, `acceptInvite` appends exactly one fresh
`PendingGame` under the fresh game id — both slots populated, both
difficulty choices `null` — and emits exactly two `showDifficultySelect`
notifications, one to each party, both carrying that game id; if either
party is not online, nothing happens. -/
theorem acceptInvite_creates_fresh_pending (st : ServerState)
    (sockId senderId freshGameId : String) :
    (∀ acc sender, objGet st.onlineUsers sockId = some acc →
       (objValues st.onlineUsers).find? (fun u => u._id == senderId) = some sender →
       objGet st.pendingGames freshGameId = none →
       acceptInvite st sockId senderId freshGameId =
         ({ st with pendingGames := st.pendingGames ++
             [(freshGameId, PendingGame.mk
                (Slot.mk sender._id sender.socketId sender.customUsername none)
                (Slot.mk acc._id acc.socketId acc.customUsername none))] },
          [Msg.showDifficultySelect sender.socketId freshGameId,
           Msg.showDifficultySelect acc.socketId freshGameId])) ∧
    ((objGet st.onlineUsers sockId = none ∨
      (objValues st.onlineUsers).find? (fun u => u._id == senderId) = none) →
      acceptInvite st sockId senderId freshGameId = (st, [])) := by
  constructor
  · intro acc sender hacc hsender hfresh
    simp [acceptInvite, hacc, hsender, objSet_of_objGet_none _ _ _ hfresh]
  · intro h
    rcases h with h | h
    · cases hs : (objValues st.onlineUsers).find? (fun u => u._id == senderId) <;>
        simp [acceptInvite, h, hs]
    · cases ha : objGet st.onlineUsers sockId <;> simp [acceptInvite, h, ha]

/-- Witness for C3: Bob accepts Alice's invitation in `stConn`; the empty
state gives the no-op branch. -/
theorem acceptInvite_creates_fresh_pending_witness :
    acceptInvite stConn "s2" "u1" "g" =
      ({ stConn with pendingGames := stConn.pendingGames ++
          [("g", PendingGame.mk (Slot.mk "u1" "s1" "Alice" none)
             (Slot.mk "u2" "s2" "Bob" none))] },
       [Msg.showDifficultySelect "s1" "g", Msg.showDifficultySelect "s2" "g"]) ∧
    acceptInvite stInit "s2" "u1" "g" = (stInit, []) :=
  ⟨(acceptInvite_creates_fresh_pending stConn "s2" "u1" "g").1 bobOnline aliceOnline
     (by decide) (by decide) (by decide),
   (acceptInvite_creates_fresh_pending stInit "s2" "u1" "g").2 (Or.inl (by decide))⟩

/-- C6 evaluated at the failing input: after the full reachable handshake
(Alice `easy`, then Bob `hard`) the `gameStart` pair has been broadcast
and game `g` has been deleted from the pending table; a `scoreUpdate`
from either participant is then a no-op — the handler scans the
**pending** table, so nothing is forwarded to the opponent.  By contrast,
while the game was still pending, the same handler did forward the score. -/
theorem scoreUpdate_after_gameStart_noop :
    Msg.gameStart "s1" "g" "Bob" "easy" ∈ (difficultySelected stHalf "s2" "g" "hard").2 ∧
    Msg.gameStart "s2" "g" "Alice" "hard" ∈ (difficultySelected stHalf "s2" "g" "hard").2 ∧
    objGet (difficultySelected stHalf "s2" "g" "hard").1.pendingGames "g" = none ∧
    scoreUpdate (difficultySelected stHalf "s2" "g" "hard").1 "s1" 5 =
      ((difficultySelected stHalf "s2" "g" "hard").1, []) ∧
    scoreUpdate (difficultySelected stHalf "s2" "g" "hard").1 "s2" 7 =
      ((difficultySelected stHalf "s2" "g" "hard").1, []) ∧
    scoreUpdate stHalf "s1" 3 = (stHalf, [Msg.opponentScoreUpdate "s2" 3]) := by
  decide

/-- C7: `sendInvite` never changes any state; if the sender's connection
is unknown or no online user matches the target account id, no message is
emitted to anyone; when both exist, exactly one `inviteReceived`
notification carrying the sender's account id and display name goes to
the target's connection only. -/
theorem sendInvite_spec (st : ServerState) (sockId toUserId : String) :
    (sendInvite st sockId toUserId).1 = st ∧
    ((objGet st.onlineUsers sockId = none ∨
      (objValues st.onlineUsers).find? (fun u => u._id == toUserId) = none) →
      (sendInvite st sockId toUserId).2 = []) ∧
    (∀ s r, objGet st.onlineUsers sockId = some s →
      (objValues st.onlineUsers).find? (fun u => u._id == toUserId) = some r →
      (sendInvite st sockId toUserId).2 =
        [Msg.inviteReceived r.socketId s._id s.customUsername]) := by
  refine ⟨?_, ?_, ?_⟩
  · cases ha : objGet st.onlineUsers sockId <;>
      cases hr : (objValues st.onlineUsers).find? (fun u => u._id == toUserId) <;>
      simp [sendInvite, ha, hr]
  · intro h
    rcases h with h | h
    · cases hr : (objValues st.onlineUsers).find? (fun u => u._id == toUserId) <;>
        simp [sendInvite, h, hr]
    · cases ha : objGet st.onlineUsers sockId <;> simp [sendInvite, h, ha]
  · intro s r hs hr
    simp [sendInvite, hs, hr]

/-- Witness for C7: in `stConn`, inviting the unknown account `u9` emits
nothing; inviting Bob emits exactly one `inviteReceived` to `s2`. -/
theorem sendInvite_spec_witness :
    (sendInvite stConn "s1" "u2").1 = stConn ∧
    (sendInvite stConn "s1" "u9").2 = [] ∧
    (sendInvite stConn "s1" "u2").2 = [Msg.inviteReceived "s2" "u1" "Alice"] :=
  ⟨(sendInvite_spec stConn "s1" "u2").1,
   (sendInvite_spec stConn "s1" "u9").2.1 (Or.inr (by decide)),
   (sendInvite_spec stConn "s1" "u2").2.2 aliceOnline bobOnline (by decide) (by decide)⟩

/-- C10: `guestLogin` unconditionally overwrites the presence record of
the handling connection with a fresh guest record (`isGuest = true`,
account id `guest_<oid>`), emits exactly one `loginSuccess` to that
connection, and touches nothing else: the database (in particular any
persisted `socketId` marker of a previously authenticated account), the
pending-game table and every other connection's record are unchanged. -/
theorem guestLogin_overwrites_presence (st : ServerState) (sockId freshOid : String) :
    objGet (guestLogin st sockId freshOid).1.onlineUsers sockId =
      some (OnlineUser.mk ("guest_" ++ freshOid)
        ("Guest-" ++ ("guest_" ++ freshOid).takeRight 4) true sockId) ∧
    (guestLogin st sockId freshOid).1.db = st.db ∧
    (guestLogin st sockId freshOid).1.pendingGames = st.pendingGames ∧
    (guestLogin st sockId freshOid).2 =
      [Msg.loginSuccess sockId ("guest_" ++ freshOid)
        ("Guest-" ++ ("guest_" ++ freshOid).takeRight 4) true] ∧
    (∀ s, s ≠ sockId → objGet (guestLogin st sockId freshOid).1.onlineUsers s =
      objGet st.onlineUsers s) := by
  refine ⟨?_, rfl, rfl, rfl, ?_⟩
  · simp only [guestLogin]
    exact objGet_objSet_self _ _ _
  · intro s hs
    simp only [guestLogin]
    exact objGet_objSet_ne _ _ _ _ hs

/-- Witness for C10: Alice's authenticated record on `s1` is replaced by a
guest record while her persisted `socketId` marker and Bob's presence
record survive. -/
theorem guestLogin_overwrites_presence_witness :
    objGet (guestLogin stConn "s1" "abcd").1.onlineUsers "s1" =
      some (OnlineUser.mk "guest_abcd" "Guest-abcd" true "s1") ∧
    (guestLogin stConn "s1" "abcd").1.db = stConn.db ∧
    objGet (guestLogin stConn "s1" "abcd").1.onlineUsers "s2" =
      objGet stConn.onlineUsers "s2" :=
  ⟨(guestLogin_overwrites_presence stConn "s1" "abcd").1,
   (guestLogin_overwrites_presence stConn "s1" "abcd").2.1,
   (guestLogin_overwrites_presence stConn "s1" "abcd").2.2.2.2 "s2" (by decide)⟩

/-- A successful `addFriend` call changes the state only by appending one
`accepted` friendship edge. -/
theorem addFriend_success (st : ServerState) (sockId friendId : String)
    (requester : OnlineUser) (recipient : UserDoc)
    (hreq : objGet st.onlineUsers sockId = some requester)
    (hguest : requester.isGuest = false)
    (hneq : requester._id ≠ friendId)
    (hrec : st.db.users.find? (fun u => u._id == friendId) = some recipient) :
    (addFriend st sockId friendId).1 =
      { st with db := { st.db with friendships := st.db.friendships ++
          [FriendEdge.mk requester._id recipient._id "accepted"] } } := by
  have hcond : (requester.isGuest || (requester._id == friendId)) = false := by
    simp [hguest, hneq]
  cases hsock : recipient.socketId with
  | none => simp [addFriend, hreq, hcond, hrec, hsock]
  | some rsid =>
      by_cases hio : (objGet st.onlineUsers rsid).isSome <;>
        simp [addFriend, hreq, hcond, hrec, hsock, hio]

/-- C8 counterexample: after Alice runs `addFriend` twice on Bob from the
reachable state `stFr0`, the friendships collection holds two identical
edges, yet the friends-list push contains **one** entry for Bob, not the
two entries the claim demands: the account lookup over the collected
friend-id list returns each user document once. -/
theorem addFriend_duplicate_single_entry_cex :
    stFr2.db.friendships =
      [FriendEdge.mk "u1" "u2" "accepted", FriendEdge.mk "u1" "u2" "accepted"] ∧
    (requestInitialData stFr2 "s1").2 = [Msg.friendsList "s1" [("u2", "Bob")] []] := by
  decide

/-- C8 (amended): `addFriend` is not idempotent at the edge level — each
successful call appends one `FriendEdge`, so two identical calls insert
two records — but the subsequent friends-list push contains at most one
entry per friend account (assuming the collection's `_id`s are unique, as
MongoDB guarantees); `addFriend` is a no-op when the requester is
unknown, is a guest, equals the recipient, or the recipient account does
not exist. -/
theorem addFriend_two_edges_single_list_entry (st : ServerState)
    (sockId friendId : String) :
    (∀ requester recipient, objGet st.onlineUsers sockId = some requester →
       requester.isGuest = false → requester._id ≠ friendId →
       st.db.users.find? (fun u => u._id == friendId) = some recipient →
       (addFriend st sockId friendId).1.db.friendships =
         st.db.friendships ++ [FriendEdge.mk requester._id recipient._id "accepted"] ∧
       (addFriend (addFriend st sockId friendId).1 sockId friendId).1.db.friendships =
         st.db.friendships ++ [FriendEdge.mk requester._id recipient._id "accepted",
           FriendEdge.mk requester._id recipient._id "accepted"]) ∧
    ((objGet st.onlineUsers sockId = none →
        addFriend st sockId friendId = (st, [])) ∧
     (∀ requester, objGet st.onlineUsers sockId = some requester →
        requester.isGuest = true ∨ requester._id = friendId →
        addFriend st sockId friendId = (st, [])) ∧
     (∀ requester, objGet st.onlineUsers sockId = some requester →
        st.db.users.find? (fun u => u._id == friendId) = none →
        addFriend st sockId friendId = (st, []))) ∧
    (∀ user, objGet st.onlineUsers sockId = some user → user.isGuest = false →
       (st.db.users.map fun u => u._id).Nodup →
       ∃ friends onlineIds, (requestInitialData st sockId).2 =
         [Msg.friendsList sockId friends onlineIds] ∧
         ∀ fid, friends.countP (fun p => p.1 == fid) ≤ 1) := by
  refine ⟨?_, ⟨?_, ?_, ?_⟩, ?_⟩
  · intro requester recipient hreq hguest hneq hrec
    have h1 := addFriend_success st sockId friendId requester recipient
      hreq hguest hneq hrec
    have hreq2 : objGet (addFriend st sockId friendId).1.onlineUsers sockId =
        some requester := by rw [h1]; exact hreq
    have hrec2 : (addFriend st sockId friendId).1.db.users.find?
        (fun u => u._id == friendId) = some recipient := by rw [h1]; exact hrec
    have h2 := addFriend_success (addFriend st sockId friendId).1 sockId friendId
      requester recipient hreq2 hguest hneq hrec2
    constructor
    · rw [h1]
    · rw [h2, h1]
      simp
  · intro h
    simp [addFriend, h]
  · intro requester hreq h
    have hcond : (requester.isGuest || (requester._id == friendId)) = true := by
      rcases h with h | h <;> simp [h]
    simp [addFriend, hreq, hcond]
  · intro requester hreq hfind
    by_cases hcond : (requester.isGuest || (requester._id == friendId)) = true
    · simp [addFriend, hreq, hcond]
    · simp [addFriend, hreq, hcond, hfind]
  · intro user huser hguest hnodup
    simp only [requestInitialData, huser, hguest]
    refine ⟨_, _, rfl, ?_⟩
    intro fid
    rw [List.countP_map]
    have hle : (st.db.users.filter fun u =>
        (st.db.friendships.filter fun f =>
          f.requesterId == user._id || f.recipientId == user._id).map
          (fun f => if f.requesterId == user._id then f.recipientId
            else f.requesterId) |>.contains u._id).countP
        (fun u => u._id == fid) ≤ st.db.users.countP fun u => u._id == fid := by
      rw [List.countP_filter]
      exact List.countP_mono_left fun a _ ha => ((Bool.and_eq_true _ _).mp ha).1
    calc _ ≤ st.db.users.countP fun u => u._id == fid := hle
      _ = List.count fid (st.db.users.map fun u => u._id) :=
          (List.countP_map (fun x => x == fid) (fun u : UserDoc => u._id)
            st.db.users).symm
      _ ≤ 1 := List.nodup_iff_count_le_one.mp hnodup fid

/-- Witness for C8 (amended), instantiated on the concrete duplicate-edge
run from `stFr0`. -/
theorem addFriend_two_edges_single_list_entry_witness :
    ((addFriend stFr0 "s1" "u2").1.db.friendships =
       stFr0.db.friendships ++ [FriendEdge.mk "u1" "u2" "accepted"] ∧
     (addFriend (addFriend stFr0 "s1" "u2").1 "s1" "u2").1.db.friendships =
       stFr0.db.friendships ++ [FriendEdge.mk "u1" "u2" "accepted",
         FriendEdge.mk "u1" "u2" "accepted"]) ∧
    addFriend stFr0 "s1" "u1" = (stFr0, []) ∧
    addFriend stFr0 "s1" "u9" = (stFr0, []) ∧
    (∃ friends onlineIds, (requestInitialData stFr2 "s1").2 =
       [Msg.friendsList "s1" friends onlineIds] ∧
       ∀ fid, friends.countP (fun p => p.1 == fid) ≤ 1) :=
  ⟨(addFriend_two_edges_single_list_entry stFr0 "s1" "u2").1
     aliceOnline bobDoc (by decide) (by decide) (by decide) (by decide),
   (addFriend_two_edges_single_list_entry stFr0 "s1" "u1").2.1.2.1
     aliceOnline (by decide) (Or.inr (by decide)),
   (addFriend_two_edges_single_list_entry stFr0 "s1" "u9").2.1.2.2
     aliceOnline (by decide) (by decide),
   (addFriend_two_edges_single_list_entry stFr2 "s1" "u2").2.2
     aliceOnline (by decide) (by decide) (by decide)⟩

/-- On a list sorted by a descending numeric key, the number of elements
with key at least `t` among the first `k` entries is the total such count,
saturated at `k` (the large elements come first). -/
theorem countP_take_sorted_key {α : Type} (key : α → Nat) (t : Nat) :
    ∀ l : List α, List.Sorted (fun a b => key b ≤ key a) l →
      ∀ k, (l.take k).countP (fun a => t ≤ key a) =
        min (l.countP fun a => t ≤ key a) k := by
  intro l
  induction l with
  | nil => intro _ k; simp
  | cons hd tl ih =>
      intro hl k
      obtain ⟨hhead, htl⟩ := List.sorted_cons.mp hl
      cases k with
      | zero => simp
      | succ k =>
          by_cases ht : t ≤ key hd
          · rw [List.take_succ_cons, List.countP_cons, List.countP_cons, ih htl k]
            simp [ht]
            omega
          · have hz : tl.countP (fun a => t ≤ key a) = 0 := by
              rw [List.countP_eq_zero]
              intro a ha
              have hk := hhead a ha
              simp only [decide_eq_true_eq]
              omega
            have hz2 : (tl.take k).countP (fun a => t ≤ key a) = 0 := by
              rw [List.countP_eq_zero]
              intro a ha
              have hk := hhead a (List.take_subset k tl ha)
              simp only [decide_eq_true_eq]
              omega
            rw [List.take_succ_cons, List.countP_cons, List.countP_cons, hz, hz2]
            simp [ht]

/-- C9: `getLeaderboards` is read-only and always answers with exactly one
`leaderboards` message: the single-player list is the top 10 stored
scores of mode `single` in descending score order, the multiplayer list
the top 10 accounts with at least one win in descending win order (each
sorted, at most 10 long, drawn from the respective filtered collection
and containing, for every threshold, as many qualifying entries as exist
up to 10); with no stored scores and no wins both lists are empty and no
error is possible. -/
theorem getLeaderboards_spec (st : ServerState) (sockId : String) :
    (getLeaderboards st sockId).1 = st ∧
    ∃ sp mp, (getLeaderboards st sockId).2 = [Msg.leaderboards sockId sp mp] ∧
      List.Sorted scoreDesc sp ∧
      List.Sorted winsDesc mp ∧
      sp.length = min 10 (st.db.scores.filter fun s => s.mode == "single").length ∧
      mp.length = min 10 (st.db.users.filter fun u => 0 < u.wins).length ∧
      (∀ r ∈ sp, r.mode = "single") ∧
      (∀ u ∈ mp, 0 < u.wins) ∧
      sp.Subperm (st.db.scores.filter fun s => s.mode == "single") ∧
      mp.Subperm (st.db.users.filter fun u => 0 < u.wins) ∧
      (∀ t, sp.countP (fun r => t ≤ ScoreRecord.score r) =
        min ((st.db.scores.filter fun s => s.mode == "single").countP
          fun r => t ≤ ScoreRecord.score r) 10) ∧
      (∀ t, mp.countP (fun u => t ≤ UserDoc.wins u) =
        min ((st.db.users.filter fun u => 0 < u.wins).countP
          fun u => t ≤ UserDoc.wins u) 10) ∧
      (st.db.scores = [] → sp = []) ∧
      ((∀ u ∈ st.db.users, u.wins = 0) → mp = []) := by
  refine ⟨rfl, _, _, rfl, ?_, ?_, ?_, ?_, ?_, ?_, ?_, ?_, ?_, ?_, ?_, ?_⟩
  · exact List.Pairwise.sublist (List.take_sublist _ _)
      (List.sorted_insertionSort scoreDesc _)
  · exact List.Pairwise.sublist (List.take_sublist _ _)
      (List.sorted_insertionSort winsDesc _)
  · rw [List.length_take, (List.perm_insertionSort scoreDesc _).length_eq]
  · rw [List.length_take, (List.perm_insertionSort winsDesc _).length_eq]
  · intro r hr
    have h1 : r ∈ List.insertionSort scoreDesc
        (st.db.scores.filter fun s => s.mode == "single") :=
      List.take_subset _ _ hr
    have h2 := (List.perm_insertionSort scoreDesc _).mem_iff.mp h1
    simpa using List.of_mem_filter h2
  · intro u hu
    have h1 : u ∈ List.insertionSort winsDesc
        (st.db.users.filter fun v => 0 < v.wins) :=
      List.take_subset _ _ hu
    have h2 := (List.perm_insertionSort winsDesc _).mem_iff.mp h1
    simpa using List.of_mem_filter h2
  · exact (List.Sublist.subperm (List.take_sublist _ _)).trans
      (List.Perm.subperm (List.perm_insertionSort _ _))
  · exact (List.Sublist.subperm (List.take_sublist _ _)).trans
      (List.Perm.subperm (List.perm_insertionSort _ _))
  · intro t
    rw [countP_take_sorted_key ScoreRecord.score t _
        (List.sorted_insertionSort scoreDesc _) 10,
      (List.perm_insertionSort scoreDesc _).countP_eq]
  · intro t
    rw [countP_take_sorted_key UserDoc.wins t _
        (List.sorted_insertionSort winsDesc _) 10,
      (List.perm_insertionSort winsDesc _).countP_eq]
  · intro h
    rw [h]
    rfl
  · intro h
    have hf : (st.db.users.filter fun u => 0 < u.wins) = [] :=
      List.filter_eq_nil_iff.mpr fun u hu => by simp [h u hu]
    rw [hf]
    rfl

/-- Witness for C9 at a concrete state: the query leaves `stConn`
untouched. -/
theorem getLeaderboards_spec_witness : (getLeaderboards stConn "s1").1 = stConn :=
  (getLeaderboards_spec stConn "s1").1

end FlappyServer
